import Mathlib

/-!
Verification development for the latentis latent-space translation pipeline.

The embedding models a vector batch (a 2-D tensor) as a `Mat`: a pair of
dimensions together with a total entry function; entries outside the
`rows × cols` region are irrelevant junk, computed consistently by every
operation.  Numeric values are rationals; the external torch numerical
kernels that the repository calls but does not implement (square root,
`torch.svd`, `torch.linalg.lstsq`, the random initialisation of
`nn.Linear`, and the global PRNG seeded by `seed_everything`) are fields
of an abstract `TorchLib` record, so every statement quantifies over what
those kernels return, constrained only by their documented shape or
orthogonality contracts where a claim needs them.
-/

namespace Latentis

/-- A 2-D numeric batch, shape `(rows, cols)`; `entry i j` is the value at
row `i`, column `j` (junk outside the valid region). -/
@[ext]
structure Mat where
  rows : ℕ
  cols : ℕ
  entry : ℕ → ℕ → ℚ

namespace Mat

/-- Tensor transpose `A.T`. -/
def transpose (A : Mat) : Mat := ⟨A.cols, A.rows, fun i j => A.entry j i⟩

/-- Matrix product `A @ B`; the contraction runs over the column count of
the left factor, as in `torch.matmul`. -/
def mul (A B : Mat) : Mat :=
  ⟨A.rows, B.cols, fun i j => ∑ k in Finset.range A.cols, A.entry i k * B.entry k j⟩

end Mat

/-- Abstract interface to the torch numerical kernels used by the
pipeline.  `svd M` stands for `torch.svd(M)` and returns `(U, S, V)`
(torch returns `V`, not `Vᵀ`); `sqrt` is the scalar square root used
inside `.std` and `.norm`; `lstsq` is `torch.linalg.lstsq(·,·).solution`;
`linInit prng din dout` is the random initialisation of
`nn.Linear(din, dout)` drawn from the global PRNG state `prng`;
`seedEverything` maps a seed to the global PRNG state it installs. -/
structure TorchLib where
  sqrt : ℚ → ℚ
  svd : Mat → Mat × List ℚ × Mat
  lstsq : Mat → Mat → Mat
  linInit : ℕ → ℕ → ℕ → Mat × (ℕ → ℚ)
  seedEverything : ℕ → ℕ

/-- Per-column mean over axis 0, `data.mean(dim=0)`. -/
def colMean (A : Mat) (j : ℕ) : ℚ := (∑ i in Finset.range A.rows, A.entry i j) / A.rows

/-- Per-column unbiased standard deviation, `data.std(dim=0)` (Bessel
correction `rows - 1`, square root taken by the numeric library). -/
def colStd (lib : TorchLib) (A : Mat) (j : ℕ) : ℚ :=
  lib.sqrt ((∑ i in Finset.range A.rows, (A.entry i j - colMean A j) ^ 2) / ((A.rows : ℚ) - 1))

/-- Squared L2 norm of row `i`. -/
def rowNormSq (A : Mat) (i : ℕ) : ℚ := ∑ j in Finset.range A.cols, A.entry i j ^ 2

/-- L2 norm of row `i`, `x.norm(p=2, dim=-1)`. -/
def rowNorm (lib : TorchLib) (A : Mat) (i : ℕ) : ℚ := lib.sqrt (rowNormSq A i)

/-- Mean of the row L2 norms, `x.norm(p=2, dim=-1).mean()`. -/
def meanRowNorm (lib : TorchLib) (A : Mat) : ℚ :=
  (∑ i in Finset.range A.rows, rowNorm lib A i) / A.rows

/-- Row-wise unit normalisation, `F.normalize(x, p=2, dim=-1)`: each row is
divided by its own L2 norm. -/
def rowNormalize (lib : TorchLib) (A : Mat) : Mat :=
  ⟨A.rows, A.cols, fun i j => A.entry i j / rowNorm lib A i⟩

/-- Subtracting the per-column mean from every row (the applied form of the
Centering transform). -/
def centerM (A : Mat) : Mat :=
  ⟨A.rows, A.cols, fun i j => A.entry i j - colMean A j⟩

/-- Errors surfaced by the pipeline: the two translator state assertions,
the not-fitted errors of transforms and estimators, the shape error raised
when fitting on mismatched row counts, the `NotImplementedError` of an
unknown estimator method, and a failed `assert` inside
`manual_svd_translation`. -/
inductive Err where
  | alreadyFitted
  | notFitted
  | shapeMismatch
  | notImplemented
  | assertionFailed
deriving DecidableEq

/-- Modelled from the spec: the transform variants of the missing
`latentis.transforms` module (Centering, StandardScaling, L2, ZeroPadding,
per spec section 4.1) plus `STDScaling` (the scaling-only component used by
the equivalence tests: divide by the per-column standard deviation).  Each
carries its fitted state (`none` while unfitted); `zeroPadding` needs no
fitting. -/
inductive Transform where
  | centering (mean : Option (ℕ → ℚ))
  | stdScaling (std : Option (ℕ → ℚ))
  | standardScaling (meanStd : Option ((ℕ → ℚ) × (ℕ → ℚ)))
  | l2 (meanNorm : Option ℚ)
  | zeroPadding (pad : ℕ)

namespace Transform

/-- Modelled from the spec: `fit` populates each transform's learnable
state from the fitting data (per-column mean, per-column std, mean row L2
norm); `ZeroPadding` has nothing to learn. -/
def fitT (lib : TorchLib) : Transform → Mat → Transform
  | centering _, A => centering (some (colMean A))
  | stdScaling _, A => stdScaling (some (colStd lib A))
  | standardScaling _, A => standardScaling (some (colMean A, colStd lib A))
  | l2 _, A => l2 (some (meanRowNorm lib A))
  | zeroPadding p, _ => zeroPadding p

/-- Modelled from the spec: the forward application of each transform;
transforms whose learnable state is consulted fail with a not-fitted error
when applied before `fit`.  `l2.apply` divides each row by its own norm
and does not consult fit-time state; `zeroPadding.apply` appends `pad`
zero-valued columns. -/
def applyT (lib : TorchLib) : Transform → Mat → Except Err Mat
  | centering none, _ => .error .notFitted
  | centering (some μ), A => .ok ⟨A.rows, A.cols, fun i j => A.entry i j - μ j⟩
  | stdScaling none, _ => .error .notFitted
  | stdScaling (some σ), A => .ok ⟨A.rows, A.cols, fun i j => A.entry i j / σ j⟩
  | standardScaling none, _ => .error .notFitted
  | standardScaling (some ms), A =>
      .ok ⟨A.rows, A.cols, fun i j => (A.entry i j - ms.1 j) / ms.2 j⟩
  | l2 _, A => .ok (rowNormalize lib A)
  | zeroPadding p, A =>
      .ok ⟨A.rows, A.cols + p, fun i j => if j < A.cols then A.entry i j else 0⟩

/-- Modelled from the spec: the reverse application of each transform
(add the mean back, multiply the std back, rescale by the fit-time mean
norm, truncate the padded columns). -/
def reverseT : Transform → Mat → Except Err Mat
  | centering none, _ => .error .notFitted
  | centering (some μ), A => .ok ⟨A.rows, A.cols, fun i j => A.entry i j + μ j⟩
  | stdScaling none, _ => .error .notFitted
  | stdScaling (some σ), A => .ok ⟨A.rows, A.cols, fun i j => A.entry i j * σ j⟩
  | standardScaling none, _ => .error .notFitted
  | standardScaling (some ms), A =>
      .ok ⟨A.rows, A.cols, fun i j => A.entry i j * ms.2 j + ms.1 j⟩
  | l2 none, _ => .error .notFitted
  | l2 (some nrm), A => .ok ⟨A.rows, A.cols, fun i j => A.entry i j * nrm⟩
  | zeroPadding p, A => .ok ⟨A.rows, A.cols - p, A.entry⟩

/-- A transform is fitted once its learnable state is populated. -/
def isFitted : Transform → Prop
  | centering o => o.isSome
  | stdScaling o => o.isSome
  | standardScaling o => o.isSome
  | l2 o => o.isSome
  | zeroPadding _ => True

/-- A transform that does not change the column count of its input
(every variant except a nontrivial `zeroPadding`). -/
def widthPreserving : Transform → Prop
  | zeroPadding p => p = 0
  | _ => True

end Transform

/-- Tolerance count from the test source:
`(~sigma.isclose(torch.zeros_like(sigma), atol=1e-1).bool()).sum().item()`
with torch's default `rtol = 1e-5` (which contributes nothing against a
zero reference). -/
def sigmaRankOf (s : List ℚ) : ℕ :=
  (s.filter (fun x => decide (¬ |x - 0| ≤ 1 / 10 + 1 / 100000 * |(0 : ℚ)|))).length

/-- Modelled from the spec: "count singular values not close to zero
(absolute tolerance ≈ 0.1)". -/
def specSigmaRank (s : List ℚ) : ℕ :=
  (s.filter (fun x => decide (¬ |x| ≤ 1 / 10))).length

/-- Modelled from the spec: the SVD/orthogonal estimator of the missing
`latentis.estimate.orthogonal` module, carrying its fitted mapping
(`none` while unfitted). -/
structure SVDEstimator where
  mapping : Option Mat

/-- Modelled from the spec: `SVDEstimator.fit` computes the
cross-covariance-like product `target.T @ source`, transposes it, takes the
SVD and keeps `R = U @ V.T`, recording the near-zero singular-value count
as metadata; fitting data with mismatched row counts is a shape error
(the underlying matmul would raise). -/
def SVDEstimator.fitE (lib : TorchLib) (_e : SVDEstimator) (source_data target_data : Mat) :
    Except Err (SVDEstimator × ℕ) :=
  if source_data.rows = target_data.rows then
    let usv := lib.svd ((target_data.transpose.mul source_data).transpose)
    .ok (⟨some (usv.1.mul usv.2.2.transpose)⟩, sigmaRankOf usv.2.1)
  else .error .shapeMismatch

/-- Modelled from the spec: `Estimator.apply` projects a batch through the
fitted mapping; there is no mapping to project through before `fit`. -/
def SVDEstimator.applyE (e : SVDEstimator) (x : Mat) : Except Err Mat :=
  match e.mapping with
  | none => .error .notFitted
  | some R => .ok (x.mul R)

/-- The state owned by a `LatentTranslator` (translator.py, constructor and
the buffers registered by `fit`).  `prng` models the process-wide PRNG
state installed by the `seed_everything(self.random_seed)` call. -/
structure TState where
  random_seed : ℕ
  prng : ℕ
  fitted : Bool
  autopad : Bool
  source_transforms : List Transform
  target_transforms : List Transform
  estimator : SVDEstimator
  translator_info : Option ℕ
  source_data : Option Mat
  target_data : Option Mat
  transformed_source_data : Option Mat
  transformed_target_data : Option Mat

/-- A freshly constructed translator (translator.py, `__init__`): unfitted,
no buffers, an unfitted estimator. -/
def initTranslator (seed : ℕ) (srcTs tgtTs : List Transform) : TState :=
  { random_seed := seed
    prng := 0
    fitted := false
    autopad := true
    source_transforms := srcTs
    target_transforms := tgtTs
    estimator := ⟨none⟩
    translator_info := none
    source_data := none
    target_data := none
    transformed_source_data := none
    transformed_target_data := none }

/-- The `for transform in self.X_transforms: transform.fit(data); data =
transform(data)` loop of `LatentTranslator.fit`: fits each transform on the
cumulatively transformed data, returning the fitted transforms and the
final data. -/
def fitChain (lib : TorchLib) : List Transform → Mat → Except Err (List Transform × Mat)
  | [], x => .ok ([], x)
  | t :: ts, x =>
    let t' := Transform.fitT lib t x
    match Transform.applyT lib t' x with
    | .error e => .error e
    | .ok y =>
      match fitChain lib ts y with
      | .error e => .error e
      | .ok p => .ok (t' :: p.1, p.2)

/-- Sequential forward application of an (already fitted) transform list,
as in `LatentTranslator.forward`. -/
def applyChain (lib : TorchLib) : List Transform → Mat → Except Err Mat
  | [], x => .ok x
  | t :: ts, x =>
    match Transform.applyT lib t x with
    | .error e => .error e
    | .ok y => applyChain lib ts y

/-- Sequential reverse application of a transform list (the caller passes
the list already reversed, as `reversed(self.target_transforms)` does). -/
def reverseChain : List Transform → Mat → Except Err Mat
  | [], x => .ok x
  | t :: ts, x =>
    match Transform.reverseT t x with
    | .error e => .error e
    | .ok y => reverseChain ts y

/-- `LatentTranslator.fit` (translator.py lines 42-76), with the in-place
mutations threaded through the returned state: assert not fitted, set the
fitted flag, seed global randomness, register the raw data buffers, append
a `ZeroPadding(abs(source_width - target_width))` to whichever side has
fewer columns (the `autopad` flag is never consulted, exactly as in the
source), fit-and-apply both transform chains, fit the estimator on the
transformed pair, and finally register the transformed buffers.  An error
raised by a sub-step propagates while the mutations already performed
persist. -/
def translatorFit (lib : TorchLib) (st : TState) (source_data target_data : Mat) :
    Except Err ℕ × TState :=
  if st.fitted then (.error .alreadyFitted, st)
  else
    let st0 := { st with
      fitted := true
      prng := lib.seedEverything st.random_seed
      source_data := some source_data
      target_data := some target_data }
    let pad := ((source_data.cols : ℤ) - (target_data.cols : ℤ)).natAbs
    let st1 :=
      if source_data.cols < target_data.cols then
        { st0 with source_transforms := st0.source_transforms ++ [Transform.zeroPadding pad] }
      else if target_data.cols < source_data.cols then
        { st0 with target_transforms := st0.target_transforms ++ [Transform.zeroPadding pad] }
      else st0
    match fitChain lib st1.source_transforms source_data with
    | .error e => (.error e, st1)
    | .ok ps =>
      let st2 := { st1 with source_transforms := ps.1 }
      match fitChain lib st2.target_transforms target_data with
      | .error e => (.error e, st2)
      | .ok pt =>
        let st3 := { st2 with target_transforms := pt.1 }
        match SVDEstimator.fitE lib st3.estimator ps.2 pt.2 with
        | .error e => (.error e, st3)
        | .ok ei =>
          (.ok ei.2,
           { st3 with
             estimator := ei.1
             translator_info := some ei.2
             transformed_source_data := some ps.2
             transformed_target_data := some pt.2 })

/-- The structured result of a forward pass: the transformed source
vectors and the final target-space vectors (the `info` mapping is always
empty in the source and is omitted). -/
structure TRes where
  source : Mat
  target : Mat

/-- The configuration of a `ManualLatentTranslation`
(test_manual_translate.py, constructor): seed, the three normalisation
flags and the estimation method string. -/
structure MCfg where
  seed : ℕ
  centering : Bool
  std_correction : Bool
  l2_norm : Bool
  method : String

/-- The fitted `self.translation` of a `ManualLatentTranslation`: either
`lambda x: x @ self.translation_matrix` or a trained `nn.Linear`. -/
inductive MTranslation where
  | matrix (translation_matrix : Mat)
  | linear (weight : Mat) (bias : ℕ → ℚ)

/-- The buffers registered by `ManualLatentTranslation.fit`. -/
structure MFitted where
  mean_encoding_anchors : ℕ → ℚ
  mean_decoding_anchors : ℕ → ℚ
  std_encoding_anchors : ℕ → ℚ
  std_decoding_anchors : ℕ → ℚ
  encoding_dim : ℕ
  decoding_dim : ℕ
  encoding_norm : ℚ
  decoding_norm : ℚ
  sigma_rank : Option ℕ
  translation : MTranslation

/-- Forward pass of `nn.Linear(din, dout)` with weight `W : dout × din`
and bias `b`: `x @ W.T + b`. -/
def linForward (W : Mat) (b : ℕ → ℚ) (X : Mat) : Mat :=
  ⟨X.rows, W.rows, fun i j => (∑ k in Finset.range W.cols, X.entry i k * W.entry j k) + b j⟩

/-- One scalar Adam update with torch defaults
(`betas=(0.9, 0.999)`, `eps=1e-8`) at step `t` (1-based) and the source's
`lr=1e-3`: returns the new parameter and the new first and second moment
estimates. -/
def adamUpd (lib : TorchLib) (t : ℕ) (g p m v : ℚ) : ℚ × ℚ × ℚ :=
  let m1 := (9 / 10) * m + (1 / 10) * g
  let v1 := (999 / 1000) * v + (1 / 1000) * g ^ 2
  let mh := m1 / (1 - (9 / 10 : ℚ) ^ t)
  let vh := v1 / (1 - (999 / 1000 : ℚ) ^ t)
  (p - (1 / 1000) * mh / (lib.sqrt vh + 1 / 100000000), m1, v1)

/-- Optimiser state of the gradient-based linear fit: the `nn.Linear`
parameters and the Adam moment estimates for each of them. -/
structure AdamSt where
  w : Mat
  b : ℕ → ℚ
  mw : ℕ → ℕ → ℚ
  vw : ℕ → ℕ → ℚ
  mb : ℕ → ℚ
  vb : ℕ → ℚ

/-- One optimisation step of the loop in the linear branch of
`ManualLatentTranslation.fit`: mean-squared-error loss between
`translation(encoding_anchors)` and `decoding_anchors`, backward through
the linear layer, one Adam step on weight and bias. -/
def adamStep (lib : TorchLib) (X Y : Mat) (t : ℕ) (s : AdamSt) : AdamSt :=
  let pred := linForward s.w s.b X
  let gP : ℕ → ℕ → ℚ := fun i j =>
    2 * (pred.entry i j - Y.entry i j) / ((X.rows : ℚ) * (Y.cols : ℚ))
  let gw : ℕ → ℕ → ℚ := fun j k => ∑ i in Finset.range X.rows, gP i j * X.entry i k
  let gb : ℕ → ℚ := fun j => ∑ i in Finset.range X.rows, gP i j
  { w := ⟨s.w.rows, s.w.cols, fun j k =>
      (adamUpd lib t (gw j k) (s.w.entry j k) (s.mw j k) (s.vw j k)).1⟩
    b := fun j => (adamUpd lib t (gb j) (s.b j) (s.mb j) (s.vb j)).1
    mw := fun j k => (adamUpd lib t (gw j k) (s.w.entry j k) (s.mw j k) (s.vw j k)).2.1
    vw := fun j k => (adamUpd lib t (gw j k) (s.w.entry j k) (s.mw j k) (s.vw j k)).2.2
    mb := fun j => (adamUpd lib t (gb j) (s.b j) (s.mb j) (s.vb j)).2.1
    vb := fun j => (adamUpd lib t (gb j) (s.b j) (s.mb j) (s.vb j)).2.2 }

/-- The optimisation loop: `n` remaining steps out of `total`, so the
current Adam step index is `total - n`. -/
def adamLoop (lib : TorchLib) (X Y : Mat) (total : ℕ) : ℕ → AdamSt → AdamSt
  | 0, s => s
  | n + 1, s => adamLoop lib X Y total n (adamStep lib X Y (total - n) s)

/-- The whole `for _ in range(300)` training of the linear branch, starting
from the given `nn.Linear` initialisation with zeroed Adam moments. -/
def adamTrain (lib : TorchLib) (steps : ℕ) (X Y : Mat) (W0 : Mat) (b0 : ℕ → ℚ) :
    Mat × (ℕ → ℚ) :=
  let fin := adamLoop lib X Y steps steps
    { w := W0, b := b0, mw := fun _ _ => 0, vw := fun _ _ => 0
      mb := fun _ => 0, vb := fun _ => 0 }
  (fin.w, fin.b)

/-- `manual_svd_translation` (test_manual_translate.py lines 14-19):
assert equal widths, then `u, s, vt = torch.svd((B.T @ A).T)` and
`R = u @ vt.T` (torch's third return value is `V`, so this is `U @ V.T`);
returns `(R, s)`. -/
def manual_svd_translation (lib : TorchLib) (A B : Mat) : Except Err (Mat × List ℚ) :=
  if A.cols = B.cols then
    let usv := lib.svd ((B.transpose.mul A).transpose)
    .ok (usv.1.mul usv.2.2.transpose, usv.2.1)
  else .error .assertionFailed

/-- Zero tensor shaped like `shape` with the columns of `X` written into
its left block: `padded = torch.zeros_like(shape); padded[:, :X.cols] = X`. -/
def padLike (X shape : Mat) : Mat :=
  ⟨shape.rows, shape.cols, fun i j => if j < X.cols then X.entry i j else 0⟩

/-- `ManualLatentTranslation.fit` (test_manual_translate.py lines 41-124):
an `"absolute"` method returns at once with nothing fitted; otherwise the
per-column means (or broadcast 0) and stds (or broadcast 1) are computed,
the anchors are normalised, the mean row norms recorded, the anchors
optionally row-normalised, and the translation is produced by the method
dispatch — gradient-trained linear layer, padded SVD Procrustes with the
near-zero singular-value count stored in `sigma_rank`, least squares,
least squares re-orthogonalised by SVD, or `NotImplementedError` for any
other method string.  `prng` is the ambient global PRNG state consumed by
the `nn.Linear` initialisation (this fit never seeds it itself). -/
def manualFit (lib : TorchLib) (prng : ℕ) (cfg : MCfg) (encoding_anchors decoding_anchors : Mat) :
    Except Err (Option MFitted) :=
  if cfg.method = "absolute" then .ok none
  else
    let μe : ℕ → ℚ := if cfg.centering then colMean encoding_anchors else fun _ => 0
    let μd : ℕ → ℚ := if cfg.centering then colMean decoding_anchors else fun _ => 0
    let σe : ℕ → ℚ := if cfg.std_correction then colStd lib encoding_anchors else fun _ => 1
    let σd : ℕ → ℚ := if cfg.std_correction then colStd lib decoding_anchors else fun _ => 1
    let dE := encoding_anchors.cols
    let dD := decoding_anchors.cols
    let enc1 : Mat := ⟨encoding_anchors.rows, encoding_anchors.cols,
      fun i j => (encoding_anchors.entry i j - μe j) / σe j⟩
    let dec1 : Mat := ⟨decoding_anchors.rows, decoding_anchors.cols,
      fun i j => (decoding_anchors.entry i j - μd j) / σd j⟩
    let encNorm := meanRowNorm lib enc1
    let decNorm := meanRowNorm lib dec1
    let enc2 := if cfg.l2_norm then rowNormalize lib enc1 else enc1
    let dec2 := if cfg.l2_norm then rowNormalize lib dec1 else dec1
    let base : MTranslation → Option ℕ → MFitted := fun tr rk =>
      { mean_encoding_anchors := μe, mean_decoding_anchors := μd
        std_encoding_anchors := σe, std_decoding_anchors := σd
        encoding_dim := dE, decoding_dim := dD
        encoding_norm := encNorm, decoding_norm := decNorm
        sigma_rank := rk, translation := tr }
    if cfg.method = "linear" then
      let init := lib.linInit prng enc2.cols dec2.cols
      let trained := adamTrain lib 300 enc2 dec2 init.1 init.2
      .ok (some (base (.linear trained.1 trained.2) none))
    else if cfg.method = "svd" then
      let enc3 := if enc2.cols < dec2.cols then padLike enc2 dec2 else enc2
      let dec3 := if dec2.cols < enc2.cols then padLike dec2 enc2 else dec2
      match manual_svd_translation lib enc3 dec3 with
      | .error e => .error e
      | .ok rs => .ok (some (base (.matrix rs.1) (some (sigmaRankOf rs.2))))
    else if cfg.method = "lstsq" then
      .ok (some (base (.matrix (lib.lstsq enc2 dec2)) none))
    else if cfg.method = "lstsq+ortho" then
      let m0 := lib.lstsq enc2 dec2
      let usv := lib.svd m0
      .ok (some (base (.matrix (usv.1.mul usv.2.2.transpose)) none))
    else .error .notImplemented

/-- `ManualLatentTranslation.transform` (test_manual_translate.py lines
126-155): `"absolute"` passes the input through; otherwise normalise by
the fitted mean/std, optionally row-normalise, pad up to `decoding_dim`
for the SVD method, project through the fitted translation, truncate to
`decoding_dim` columns, optionally restore the fit-time mean decoding
norm, restore std and mean. -/
def manualTransform (lib : TorchLib) (cfg : MCfg) (stO : Option MFitted) (X : Mat) :
    Except Err TRes :=
  if cfg.method = "absolute" then .ok ⟨X, X⟩
  else
    match stO with
    | none => .error .notFitted
    | some st =>
      let enc0 : Mat := ⟨X.rows, X.cols,
        fun i j => (X.entry i j - st.mean_encoding_anchors j) / st.std_encoding_anchors j⟩
      let enc1 := if cfg.l2_norm then rowNormalize lib enc0 else enc0
      let enc2 := if cfg.method = "svd" ∧ st.encoding_dim < st.decoding_dim then
          (⟨X.rows, st.decoding_dim,
            fun i j => if j < st.encoding_dim then enc1.entry i j else 0⟩ : Mat)
        else enc1
      let dec0 := match st.translation with
        | .matrix R => enc2.mul R
        | .linear W b => linForward W b enc2
      let dec1 : Mat := ⟨dec0.rows, min st.decoding_dim dec0.cols, dec0.entry⟩
      let dec2 := if cfg.l2_norm then
          (⟨dec1.rows, dec1.cols, fun i j => dec1.entry i j * st.decoding_norm⟩ : Mat)
        else dec1
      let dec3 : Mat := ⟨dec2.rows, dec2.cols,
        fun i j => dec2.entry i j * st.std_decoding_anchors j + st.mean_decoding_anchors j⟩
      .ok ⟨enc2, dec3⟩

/-- End-to-end manual pipeline as exercised by `test_manual_translation`:
fit on the anchor pair, then transform a batch, returning the target-space
output. -/
def manualRun (lib : TorchLib) (prng : ℕ) (cfg : MCfg) (A B X : Mat) : Except Err Mat :=
  match manualFit lib prng cfg A B with
  | .error e => .error e
  | .ok st =>
    match manualTransform lib cfg st X with
    | .error e => .error e
    | .ok r => .ok r.target


/-- `LatentTranslator.forward` (translator.py lines 78-88): apply each
source transform in order, project through the estimator, reverse each
target transform in reverse order.  The source performs no fitted-state
check here. -/
def translatorForward (lib : TorchLib) (st : TState) (x : Mat) : Except Err TRes :=
  match applyChain lib st.source_transforms x with
  | .error e => .error e
  | .ok source_x =>
    match st.estimator.applyE source_x with
    | .error e => .error e
    | .ok target_x =>
      match reverseChain st.target_transforms.reverse target_x with
      | .error e => .error e
      | .ok y => .ok ⟨source_x, y⟩

/-- End-to-end translator pipeline as exercised by
`test_manual_translation`: construct a `LatentTranslator`, fit it on the
anchor pair, then run the forward pass on a batch, returning the
target-space output. -/
def translatorRun (lib : TorchLib) (seed : ℕ) (srcTs tgtTs : List Transform) (A B X : Mat) :
    Except Err Mat :=
  let p := translatorFit lib (initTranslator seed srcTs tgtTs) A B
  match p.1 with
  | .error e => .error e
  | .ok _ =>
    match translatorForward lib p.2 X with
    | .error e => .error e
    | .ok r => .ok r.target

/-- Modelled from the spec (section 4.2): the Procrustes mapping described
in the spec's words — "compute the cross-covariance-like product
target^T · source, take its transpose, perform singular value
decomposition (U, Σ, Vᵗ), and set R = U · Vᵗ" (the abstract `svd` returns
`V`, so the spec's `Vᵗ` is its transpose). -/
def procrustesSpecR (lib : TorchLib) (source target : Mat) : Mat :=
  let M := (target.transpose.mul source).transpose
  (lib.svd M).1.mul ((lib.svd M).2.2.transpose)

/-- The singular values of the matrix decomposed by the spec's Procrustes
construction. -/
def procrustesSpecSigma (lib : TorchLib) (source target : Mat) : List ℚ :=
  (lib.svd ((target.transpose.mul source).transpose)).2.1

/-- Identity-patterned square matrix of size `n`. -/
def eye (n : ℕ) : Mat := ⟨n, n, fun i j => if i = j then 1 else 0⟩

/-- All-ones batch of shape `(n, d)`. -/
def ones (n d : ℕ) : Mat := ⟨n, d, fun _ _ => 1⟩

/-- All-zero batch of shape `(n, d)`. -/
def zeroes (n d : ℕ) : Mat := ⟨n, d, fun _ _ => 0⟩

/-- A concrete instantiation of the abstract numeric library, used to show
that the hypotheses on `TorchLib` in the theorems below are satisfiable:
its `svd M` returns `(M, [], I)` with `I` square of side `M.cols`, so the
shape contract of `torch.svd` holds definitionally. -/
def lib0 : TorchLib :=
  { sqrt := fun x => x
    svd := fun M => (M, [], ⟨M.cols, M.cols, fun i j => if i = j then 1 else 0⟩)
    lstsq := fun _ B => B
    linInit := fun _ din dout => (⟨dout, din, fun _ _ => 0⟩, fun _ => 0)
    seedEverything := fun s => s }

/-- A second concrete library whose `svd` always returns the orthogonal
pair `(I₁, [], I₁)`. -/
def lib1 : TorchLib := { lib0 with svd := fun _ => (eye 1, [], eye 1) }

/-- A freshly constructed translator with no user transforms. -/
def st0 : TState := initTranslator 0 [] []

/-- An unfitted translator whose estimator happens to hold a fitted
mapping (obtained by fitting the estimator separately before handing it
to the constructor). -/
def stPrefit : TState := { st0 with estimator := ⟨some (eye 1)⟩ }

/-- Reading the valid `n × m` region of a batch as a Mathlib matrix, to
state algebraic facts (orthogonality) about it. -/
def Mat.toMatrix (A : Mat) (n m : ℕ) : Matrix (Fin n) (Fin m) ℚ :=
  Matrix.of fun i j => A.entry i j

/-- The number of columns a transform adds in the forward direction
(nonzero only for `zeroPadding`). -/
def Transform.padAmount : Transform → ℕ
  | .zeroPadding p => p
  | _ => 0

/-- Total number of columns a transform chain adds in the forward
direction (and removes in the reverse direction). -/
def chainPad (ts : List Transform) : ℕ := (ts.map Transform.padAmount).sum

/-- The counting convention of the source (`isclose` against zeros with
`atol=1e-1` and the default `rtol=1e-5`) coincides with the spec's plain
absolute-tolerance count. -/
theorem sigmaRankOf_eq_spec (s : List ℚ) : sigmaRankOf s = specSigmaRank s := by
  unfold sigmaRankOf specSigmaRank
  congr 2
  funext x
  simp only [sub_zero, abs_zero, mul_zero, add_zero]

/-- Helper: a fit started on an unfitted translator flips the fitted flag
at once, and every later mutation preserves it. -/
theorem translatorFit_fitted (lib : TorchLib) (st : TState) (A B : Mat)
    (h : st.fitted = false) : (translatorFit lib st A B).2.fitted = true := by
  unfold translatorFit
  rw [if_neg (show ¬ (st.fitted = true) by simp [h])]
  dsimp only
  repeat' split
  all_goals rfl

/-- Helper: a fit attempted on a fitted translator stops at the assert,
returning the state untouched. -/
theorem translatorFit_already (lib : TorchLib) (st : TState) (A B : Mat)
    (h : st.fitted = true) :
    translatorFit lib st A B = (.error .alreadyFitted, st) := by
  unfold translatorFit
  rw [if_pos h]

/-- C4: `manual_svd_translation` computes exactly the mapping described by
the spec — transpose of `target^T · source` decomposed by SVD with
`R = U · Vᵗ` — together with the singular values of that same
decomposition, for every pair of equal-width inputs (the guarding
`assert` succeeds exactly on those). -/
theorem svd_estimator_construction (lib : TorchLib) (A B : Mat) (hcols : A.cols = B.cols) :
    manual_svd_translation lib A B =
      .ok (procrustesSpecR lib A B, procrustesSpecSigma lib A B) := by
  unfold manual_svd_translation procrustesSpecR procrustesSpecSigma
  rw [if_pos hcols]

theorem svd_estimator_construction_witness :
    (ones 2 3).cols = (zeroes 2 3).cols ∧
      manual_svd_translation lib0 (ones 2 3) (zeroes 2 3) =
        .ok (procrustesSpecR lib0 (ones 2 3) (zeroes 2 3),
          procrustesSpecSigma lib0 (ones 2 3) (zeroes 2 3)) :=
  ⟨rfl, svd_estimator_construction lib0 (ones 2 3) (zeroes 2 3) rfl⟩

/-- C8: calling `ManualLatentTranslation.fit` with a method string that is
none of the five dispatched ones ("absolute", "linear", "svd", "lstsq",
"lstsq+ortho") reaches the final `else` branch and raises
`NotImplementedError`; in particular it never returns successfully without
a fitted mapping. -/
theorem unknown_method_errors (lib : TorchLib) (prng : ℕ) (cfg : MCfg) (A B : Mat)
    (h : cfg.method ∉ (["absolute", "linear", "svd", "lstsq", "lstsq+ortho"] : List String)) :
    manualFit lib prng cfg A B = .error .notImplemented := by
  simp only [List.mem_cons, List.not_mem_nil, or_false, not_or] at h
  obtain ⟨h1, h2, h3, h4, h5⟩ := h
  unfold manualFit
  rw [if_neg h1, if_neg h2, if_neg h3, if_neg h4, if_neg h5]

theorem unknown_method_errors_witness :
    (⟨0, true, true, false, "general"⟩ : MCfg).method ∉
        (["absolute", "linear", "svd", "lstsq", "lstsq+ortho"] : List String) ∧
      manualFit lib0 0 ⟨0, true, true, false, "general"⟩ (ones 1 1) (ones 1 1) =
        .error .notImplemented :=
  ⟨by decide, unknown_method_errors lib0 0 ⟨0, true, true, false, "general"⟩
    (ones 1 1) (ones 1 1) (by decide)⟩

/-- C6: after a first `fit` on a fresh translator (whether that fit
succeeded or raised), a second `fit` call stops at the
"Translator is already fitted." assert and performs no transformation or
estimation work: it returns the error with the state completely
unchanged. -/
theorem fit_twice_errors (lib : TorchLib) (st : TState) (A B C D : Mat)
    (h : st.fitted = false) :
    translatorFit lib (translatorFit lib st A B).2 C D =
      (.error .alreadyFitted, (translatorFit lib st A B).2) :=
  translatorFit_already lib _ C D (translatorFit_fitted lib st A B h)

theorem fit_twice_errors_witness :
    st0.fitted = false ∧
      translatorFit lib0 (translatorFit lib0 st0 (ones 1 1) (ones 1 1)).2 (ones 1 1) (ones 1 1) =
        (.error .alreadyFitted, (translatorFit lib0 st0 (ones 1 1) (ones 1 1)).2) :=
  ⟨rfl, fit_twice_errors lib0 st0 (ones 1 1) (ones 1 1) (ones 1 1) (ones 1 1) rfl⟩

/-- C10: `fit` sets the fitted flag before any padding, transform fitting
or estimation; hence when a fit raises partway (here: any error result),
the instance stays marked fitted and every retry stops at the
already-fitted assert — a failed fit cannot be retried on the same
instance. -/
theorem failed_fit_not_retryable (lib : TorchLib) (st : TState) (A B : Mat) (e : Err)
    (hst : st.fitted = false) (_he : (translatorFit lib st A B).1 = .error e) :
    (translatorFit lib st A B).2.fitted = true ∧
      ∀ C D, translatorFit lib (translatorFit lib st A B).2 C D =
        (.error .alreadyFitted, (translatorFit lib st A B).2) :=
  ⟨translatorFit_fitted lib st A B hst,
    fun C D => translatorFit_already lib _ C D (translatorFit_fitted lib st A B hst)⟩

theorem failed_fit_not_retryable_witness :
    (st0.fitted = false ∧
        (translatorFit lib0 st0 (ones 1 1) (zeroes 2 1)).1 = .error .shapeMismatch) ∧
      ((translatorFit lib0 st0 (ones 1 1) (zeroes 2 1)).2.fitted = true ∧
        ∀ C D, translatorFit lib0 (translatorFit lib0 st0 (ones 1 1) (zeroes 2 1)).2 C D =
          (.error .alreadyFitted, (translatorFit lib0 st0 (ones 1 1) (zeroes 2 1)).2)) :=
  ⟨⟨rfl, rfl⟩,
    failed_fit_not_retryable lib0 st0 (ones 1 1) (zeroes 2 1) .shapeMismatch rfl rfl⟩

/-- C7: determinism of the gradient-based linear estimator.  All
randomness enters through the global PRNG state, which
`seed_everything(seed)` (modelled by `lib.seedEverything`) determines from
the seed alone; two fit-and-transform runs of the linear method with equal
seeds and equal data therefore produce numerically identical outputs on
the same held-out batch. -/
theorem linear_estimator_deterministic (lib : TorchLib) (s1 s2 : ℕ) (c sd l : Bool)
    (A1 B1 X1 A2 B2 X2 : Mat)
    (hs : s1 = s2) (hA : A1 = A2) (hB : B1 = B2) (hX : X1 = X2) :
    manualRun lib (lib.seedEverything s1) ⟨s1, c, sd, l, "linear"⟩ A1 B1 X1 =
      manualRun lib (lib.seedEverything s2) ⟨s2, c, sd, l, "linear"⟩ A2 B2 X2 := by
  subst hs hA hB hX
  rfl

theorem linear_estimator_deterministic_witness :
    ((0 : ℕ) = 0 ∧ ones 2 2 = ones 2 2 ∧ zeroes 2 2 = zeroes 2 2 ∧ ones 1 2 = ones 1 2) ∧
      manualRun lib0 (lib0.seedEverything 0) ⟨0, true, false, false, "linear"⟩
          (ones 2 2) (zeroes 2 2) (ones 1 2) =
        manualRun lib0 (lib0.seedEverything 0) ⟨0, true, false, false, "linear"⟩
          (ones 2 2) (zeroes 2 2) (ones 1 2) :=
  ⟨⟨rfl, rfl, rfl, rfl⟩,
    linear_estimator_deterministic lib0 0 0 true false false
      (ones 2 2) (zeroes 2 2) (ones 1 2) (ones 2 2) (zeroes 2 2) (ones 1 2)
      rfl rfl rfl rfl⟩

open Matrix

/-- Multiplication of batches agrees with Mathlib matrix multiplication on
the valid region once the contraction length matches the left factor's
column count. -/
theorem toMatrix_mul (A B : Mat) (n p m : ℕ) (h : A.cols = p) :
    (A.mul B).toMatrix n m = A.toMatrix n p * B.toMatrix p m := by
  subst h
  ext i j
  simp only [Mat.toMatrix, Mat.mul, Matrix.mul_apply, Matrix.of_apply]
  exact (Fin.sum_univ_eq_sum_range (fun k => A.entry i k * B.entry k j) A.cols).symm

/-- Transposition of batches agrees with Mathlib matrix transposition. -/
theorem toMatrix_transpose (A : Mat) (n m : ℕ) :
    A.transpose.toMatrix m n = (A.toMatrix n m)ᵀ := rfl

/-- C5: whenever `torch.svd` fulfils its contract that the returned `U`
and `V` are orthogonal (read on the common width `d` of the fit inputs),
the mapping `R` returned by `manual_svd_translation` is orthogonal:
`R @ R.T` is exactly the identity. -/
theorem svd_mapping_orthogonal (lib : TorchLib) (A B : Mat) (d : ℕ) (R : Mat) (s : List ℚ)
    (hok : manual_svd_translation lib A B = .ok (R, s))
    (huc : ((lib.svd ((B.transpose.mul A).transpose)).1).cols = d)
    (hU : ((lib.svd ((B.transpose.mul A).transpose)).1).toMatrix d d *
        (((lib.svd ((B.transpose.mul A).transpose)).1).toMatrix d d)ᵀ = 1)
    (hV : (((lib.svd ((B.transpose.mul A).transpose)).2.2).toMatrix d d)ᵀ *
        ((lib.svd ((B.transpose.mul A).transpose)).2.2).toMatrix d d = 1) :
    R.toMatrix d d * (R.toMatrix d d)ᵀ = 1 := by
  unfold manual_svd_translation at hok
  dsimp only at hok
  split at hok
  · simp only [Except.ok.injEq, Prod.mk.injEq] at hok
    rw [← hok.1]
    rw [toMatrix_mul _ _ d d d huc, toMatrix_transpose, Matrix.transpose_mul,
      Matrix.transpose_transpose, ← mul_assoc, mul_assoc _ _ (((lib.svd
        ((B.transpose.mul A).transpose)).2.2).toMatrix d d), hV, mul_one, hU]
  · exact absurd hok (by simp)

/-- The 1×1 identity-patterned batch reads back as the identity matrix. -/
theorem eye_toMatrix_one : (eye 1).toMatrix 1 1 = 1 := by
  ext i j
  fin_cases i
  fin_cases j
  simp [eye, Mat.toMatrix, Matrix.one_apply]

theorem svd_mapping_orthogonal_witness :
    (manual_svd_translation lib1 (ones 1 1) (ones 1 1) =
        .ok ((eye 1).mul ((eye 1).transpose), []) ∧
      (eye 1).cols = 1 ∧
      (eye 1).toMatrix 1 1 * ((eye 1).toMatrix 1 1)ᵀ = 1 ∧
      ((eye 1).toMatrix 1 1)ᵀ * (eye 1).toMatrix 1 1 = 1) ∧
      ((eye 1).mul ((eye 1).transpose)).toMatrix 1 1 *
        (((eye 1).mul ((eye 1).transpose)).toMatrix 1 1)ᵀ = 1 := by
  have hU : (eye 1).toMatrix 1 1 * ((eye 1).toMatrix 1 1)ᵀ = 1 := by
    rw [eye_toMatrix_one]
    simp
  have hV : ((eye 1).toMatrix 1 1)ᵀ * (eye 1).toMatrix 1 1 = 1 := by
    rw [eye_toMatrix_one]
    simp
  exact ⟨⟨rfl, rfl, hU, hV⟩,
    svd_mapping_orthogonal lib1 (ones 1 1) (ones 1 1) 1 ((eye 1).mul ((eye 1).transpose)) []
      rfl rfl hU hV⟩

/-- C9: for the SVD method the fitted `sigma_rank` equals the count of
singular values of the decomposed matrix that are not close to zero
(absolute tolerance 0.1), and the translation matrix stored alongside it
is the full, untruncated `U · Vᵗ` of that same decomposition — the rank is
recorded as metadata only. -/
theorem sigma_rank_diagnostic_only (lib : TorchLib) (prng : ℕ) (cfg : MCfg) (A B : Mat)
    (hm : cfg.method = "svd") (hcols : A.cols = B.cols) :
    ∃ st M, manualFit lib prng cfg A B = .ok (some st) ∧
      st.translation = .matrix ((lib.svd M).1.mul ((lib.svd M).2.2.transpose)) ∧
      st.sigma_rank = some (specSigmaRank (lib.svd M).2.1) := by
  unfold manualFit manual_svd_translation
  rw [hm]
  rw [if_neg (show ¬ ("svd" : String) = "absolute" by decide),
    if_neg (show ¬ ("svd" : String) = "linear" by decide),
    if_pos (rfl : ("svd" : String) = "svd")]
  dsimp only
  simp only [apply_ite Mat.cols, rowNormalize, hcols, lt_self_iff_false, ite_self, if_false,
    if_pos rfl]
  refine ⟨_, _, rfl, rfl, ?_⟩
  rw [sigmaRankOf_eq_spec]

theorem sigma_rank_diagnostic_only_witness :
    ((⟨0, true, true, false, "svd"⟩ : MCfg).method = "svd" ∧
        (ones 2 3).cols = (zeroes 2 3).cols) ∧
      ∃ st M, manualFit lib0 0 ⟨0, true, true, false, "svd"⟩ (ones 2 3) (zeroes 2 3) =
          .ok (some st) ∧
        st.translation = .matrix ((lib0.svd M).1.mul ((lib0.svd M).2.2.transpose)) ∧
        st.sigma_rank = some (specSigmaRank (lib0.svd M).2.1) :=
  ⟨⟨rfl, rfl⟩,
    sigma_rank_diagnostic_only lib0 0 ⟨0, true, true, false, "svd"⟩ (ones 2 3) (zeroes 2 3)
      rfl rfl⟩

/-- Helper: fitting a transform always populates its learnable state. -/
theorem fitT_isFitted (lib : TorchLib) (t : Transform) (A : Mat) :
    (Transform.fitT lib t A).isFitted := by
  cases t <;> simp [Transform.fitT, Transform.isFitted]

/-- Helper: fitting never changes which padding a transform performs. -/
theorem fitT_padAmount (lib : TorchLib) (t : Transform) (A : Mat) :
    (Transform.fitT lib t A).padAmount = t.padAmount := by
  cases t <;> rfl

/-- Helper: fitting preserves width-preservation. -/
theorem fitT_widthPreserving (lib : TorchLib) (t : Transform) (A : Mat)
    (h : t.widthPreserving) : (Transform.fitT lib t A).widthPreserving := by
  cases t <;> exact h

/-- Helper: applying a fitted transform succeeds, keeps the row count and
adds exactly its padding amount to the column count. -/
theorem applyT_ok (lib : TorchLib) (t : Transform) (A : Mat) (h : t.isFitted) :
    ∃ y, Transform.applyT lib t A = .ok y ∧ y.rows = A.rows ∧
      y.cols = A.cols + t.padAmount := by
  cases t with
  | centering o =>
    cases o with
    | none => simp [Transform.isFitted] at h
    | some μ => exact ⟨_, rfl, rfl, by simp [Transform.padAmount]⟩
  | stdScaling o =>
    cases o with
    | none => simp [Transform.isFitted] at h
    | some σ => exact ⟨_, rfl, rfl, by simp [Transform.padAmount]⟩
  | standardScaling o =>
    cases o with
    | none => simp [Transform.isFitted] at h
    | some ms => exact ⟨_, rfl, rfl, by simp [Transform.padAmount]⟩
  | l2 o => exact ⟨_, rfl, rfl, by simp [Transform.applyT, rowNormalize, Transform.padAmount]⟩
  | zeroPadding p => exact ⟨_, rfl, rfl, rfl⟩

/-- Helper: reversing a fitted transform succeeds, keeps the row count and
removes exactly its padding amount from the column count. -/
theorem reverseT_ok (t : Transform) (A : Mat) (h : t.isFitted) :
    ∃ y, Transform.reverseT t A = .ok y ∧ y.rows = A.rows ∧
      y.cols = A.cols - t.padAmount := by
  cases t with
  | centering o =>
    cases o with
    | none => simp [Transform.isFitted] at h
    | some μ => exact ⟨_, rfl, rfl, by simp [Transform.padAmount]⟩
  | stdScaling o =>
    cases o with
    | none => simp [Transform.isFitted] at h
    | some σ => exact ⟨_, rfl, rfl, by simp [Transform.padAmount]⟩
  | standardScaling o =>
    cases o with
    | none => simp [Transform.isFitted] at h
    | some ms => exact ⟨_, rfl, rfl, by simp [Transform.padAmount]⟩
  | l2 o =>
    cases o with
    | none => simp [Transform.isFitted] at h
    | some nrm => exact ⟨_, rfl, rfl, by simp [Transform.padAmount]⟩
  | zeroPadding p => exact ⟨_, rfl, rfl, rfl⟩

/-- Helper: a chain of width-preserving transforms pads nothing. -/
theorem chainPad_eq_zero (ts : List Transform) (h : ∀ t ∈ ts, t.widthPreserving) :
    chainPad ts = 0 := by
  induction ts with
  | nil => rfl
  | cons t ts ih =>
    have hw := h t (List.mem_cons_self t ts)
    have ht : t.padAmount = 0 := by cases t <;> first | rfl | exact hw
    have ihz := ih (fun u hu => h u (List.mem_cons_of_mem t hu))
    simp only [chainPad, List.map_cons, List.sum_cons, ht, zero_add]
    simpa [chainPad] using ihz

/-- Helper: the fit-and-apply loop of `LatentTranslator.fit` always
succeeds with the modelled transform set; it returns fitted transforms of
the same length and padding total, and data with unchanged rows and the
chain's total padding added to the columns. -/
theorem fitChain_ok (lib : TorchLib) : ∀ (ts : List Transform) (x : Mat),
    ∃ ts' y, fitChain lib ts x = .ok (ts', y) ∧
      ts'.length = ts.length ∧ (∀ t ∈ ts', t.isFitted) ∧ chainPad ts' = chainPad ts ∧
      y.rows = x.rows ∧ y.cols = x.cols + chainPad ts
  | [], x => ⟨[], x, rfl, rfl, by simp, rfl, rfl, by simp [chainPad]⟩
  | t :: ts, x => by
    obtain ⟨y, hy, hyr, hyc⟩ := applyT_ok lib (Transform.fitT lib t x) x (fitT_isFitted lib t x)
    obtain ⟨ts', z, hc, hlen, hfit, hpad, hzr, hzc⟩ := fitChain_ok lib ts y
    refine ⟨Transform.fitT lib t x :: ts', z, ?_, ?_, ?_, ?_, ?_, ?_⟩
    · simp only [fitChain, hy, hc]
    · simp [hlen]
    · intro u hu
      rcases List.mem_cons.mp hu with h | h
      · exact h ▸ fitT_isFitted lib t x
      · exact hfit u h
    · simp [chainPad, List.map_cons, List.sum_cons, fitT_padAmount lib t x]
      simpa [chainPad] using hpad
    · rw [hzr, hyr]
    · rw [hzc, hyc, fitT_padAmount lib t x]
      simp [chainPad, List.map_cons, List.sum_cons]
      omega

/-- Helper: extending the fitted chain by a `zeroPadding` on the right
appends exactly that transform (unchanged by fitting) and pads the data. -/
theorem fitChain_append_pad (lib : TorchLib) : ∀ (ts : List Transform) (x : Mat) (p : ℕ),
    fitChain lib (ts ++ [Transform.zeroPadding p]) x =
      match fitChain lib ts x with
      | .error e => .error e
      | .ok pr => .ok (pr.1 ++ [Transform.zeroPadding p],
          ⟨pr.2.rows, pr.2.cols + p, fun i j => if j < pr.2.cols then pr.2.entry i j else 0⟩)
  | [], _, _ => rfl
  | t :: ts, x, p => by
    show fitChain lib (t :: (ts ++ [Transform.zeroPadding p])) x = _
    cases hy : Transform.applyT lib (Transform.fitT lib t x) x with
    | error e => simp only [fitChain, hy]
    | ok y =>
      simp only [fitChain, hy, fitChain_append_pad lib ts y p]
      cases hc : fitChain lib ts y <;> rfl

/-- Helper: forward application of a chain of fitted transforms succeeds
and adds the chain's total padding to the column count. -/
theorem applyChain_ok (lib : TorchLib) : ∀ (ts : List Transform) (x : Mat),
    (∀ t ∈ ts, t.isFitted) →
    ∃ y, applyChain lib ts x = .ok y ∧ y.rows = x.rows ∧ y.cols = x.cols + chainPad ts
  | [], x, _ => ⟨x, rfl, rfl, by simp [chainPad]⟩
  | t :: ts, x, h => by
    obtain ⟨y, hy, hyr, hyc⟩ := applyT_ok lib t x (h t (List.mem_cons_self t ts))
    obtain ⟨z, hc, hzr, hzc⟩ :=
      applyChain_ok lib ts y (fun u hu => h u (List.mem_cons_of_mem t hu))
    refine ⟨z, ?_, by rw [hzr, hyr], ?_⟩
    · simp only [applyChain, hy, hc]
    · rw [hzc, hyc]
      simp [chainPad, List.map_cons, List.sum_cons]
      omega

/-- Helper: reverse application of a chain of fitted transforms succeeds
and removes the chain's total padding from the column count. -/
theorem reverseChain_ok : ∀ (ts : List Transform) (x : Mat),
    (∀ t ∈ ts, t.isFitted) →
    ∃ y, reverseChain ts x = .ok y ∧ y.rows = x.rows ∧ y.cols = x.cols - chainPad ts
  | [], x, _ => ⟨x, rfl, rfl, by simp [chainPad]⟩
  | t :: ts, x, h => by
    obtain ⟨y, hy, hyr, hyc⟩ := reverseT_ok t x (h t (List.mem_cons_self t ts))
    obtain ⟨z, hc, hzr, hzc⟩ :=
      reverseChain_ok ts y (fun u hu => h u (List.mem_cons_of_mem t hu))
    refine ⟨z, ?_, by rw [hzr, hyr], ?_⟩
    · simp only [reverseChain, hy, hc]
    · rw [hzc, hyc]
      simp [chainPad, List.map_cons, List.sum_cons]
      omega

/-- Helper: total padding of a chain is invariant under reversal. -/
theorem chainPad_reverse (ts : List Transform) : chainPad ts.reverse = chainPad ts := by
  simp [chainPad, List.map_reverse, List.sum_reverse]

/-- Helper: the estimator fit on row-aligned data returns the Procrustes
mapping and the singular-value count. -/
theorem fitE_ok (lib : TorchLib) (e : SVDEstimator) (S T : Mat) (h : S.rows = T.rows) :
    SVDEstimator.fitE lib e S T =
      .ok (⟨some (((lib.svd ((T.transpose.mul S).transpose)).1).mul
          (((lib.svd ((T.transpose.mul S).transpose)).2.2).transpose))⟩,
        sigmaRankOf (lib.svd ((T.transpose.mul S).transpose)).2.1) := by
  unfold SVDEstimator.fitE
  rw [if_pos h]

/-- C3: on fitting inputs whose column counts differ, and whatever the
value of the (never consulted) `autopad` flag carried by the state, `fit`
appends exactly one `ZeroPadding` of the absolute width difference to the
transform list of the narrower side and leaves the other list's length
unchanged; both transformed sides then have equal width (the common
`max` width) when the estimator is fitted, and every forward pass output
has the target width. -/
theorem autopad_dimension_reconciliation (lib : TorchLib) (st : TState) (A B : Mat)
    (hf : st.fitted = false)
    (hwS : ∀ t ∈ st.source_transforms, t.widthPreserving)
    (hwT : ∀ t ∈ st.target_transforms, t.widthPreserving)
    (hrows : A.rows = B.rows) (hne : A.cols ≠ B.cols)
    (hsvd : ∀ M, ((lib.svd M).2.2).rows = M.cols) :
    ∃ info st', translatorFit lib st A B = (.ok info, st') ∧
      (A.cols < B.cols →
        (∃ ts, st'.source_transforms = ts ++ [Transform.zeroPadding (B.cols - A.cols)] ∧
          ts.length = st.source_transforms.length) ∧
        st'.target_transforms.length = st.target_transforms.length) ∧
      (B.cols < A.cols →
        (∃ ts, st'.target_transforms = ts ++ [Transform.zeroPadding (A.cols - B.cols)] ∧
          ts.length = st.target_transforms.length) ∧
        st'.source_transforms.length = st.source_transforms.length) ∧
      (∃ S T, st'.transformed_source_data = some S ∧ st'.transformed_target_data = some T ∧
        S.cols = max A.cols B.cols ∧ T.cols = max A.cols B.cols) ∧
      (∀ X, ∃ r, translatorForward lib st' X = .ok r ∧ r.target.cols = B.cols) := by
  obtain ⟨ts1, S0, hc1, hlen1, hfit1, hpad1, hS0r, hS0c⟩ := fitChain_ok lib st.source_transforms A
  obtain ⟨ts2, T0, hc2, hlen2, hfit2, hpad2, hT0r, hT0c⟩ := fitChain_ok lib st.target_transforms B
  have hzS : chainPad st.source_transforms = 0 := chainPad_eq_zero _ hwS
  have hzT : chainPad st.target_transforms = 0 := chainPad_eq_zero _ hwT
  rcases lt_or_gt_of_ne hne with hlt | hgt
  · -- source is narrower: padding goes to the source side
    have hpadeq : (((A.cols : ℤ)) - ((B.cols : ℤ))).natAbs = B.cols - A.cols := by omega
    have hchainS : fitChain lib
        (st.source_transforms ++ [Transform.zeroPadding (B.cols - A.cols)]) A =
        .ok (ts1 ++ [Transform.zeroPadding (B.cols - A.cols)],
          ⟨S0.rows, S0.cols + (B.cols - A.cols),
            fun i j => if j < S0.cols then S0.entry i j else 0⟩) := by
      simp only [fitChain_append_pad lib st.source_transforms A (B.cols - A.cols), hc1]
    have hest := fitE_ok lib st.estimator
      (⟨S0.rows, S0.cols + (B.cols - A.cols),
        fun i j => if j < S0.cols then S0.entry i j else 0⟩ : Mat) T0
      (by rw [hS0r] at *; rw [hT0r]; exact hrows)
    simp only [translatorFit, hf, Bool.false_eq_true, if_false, hpadeq, hlt, if_true,
      hchainS, hc2, hest]
    refine ⟨_, _, rfl, ?_, ?_, ?_, ?_⟩
    · intro _
      exact ⟨⟨ts1, rfl, hlen1⟩, hlen2⟩
    · intro h
      exact absurd h (by omega)
    · refine ⟨_, _, rfl, rfl, ?_, ?_⟩
      · show S0.cols + (B.cols - A.cols) = max A.cols B.cols
        omega
      · show T0.cols = max A.cols B.cols
        omega
    · intro X
      have hfitAllS : ∀ t ∈ ts1 ++ [Transform.zeroPadding (B.cols - A.cols)], t.isFitted := by
        intro t ht
        rcases List.mem_append.mp ht with h | h
        · exact hfit1 t h
        · rcases List.mem_singleton.mp h with rfl
          trivial
      obtain ⟨y1, ha, hy1r, hy1c⟩ :=
        applyChain_ok lib (ts1 ++ [Transform.zeroPadding (B.cols - A.cols)]) X hfitAllS
      have hfitRev : ∀ t ∈ ts2.reverse, t.isFitted := by
        intro t ht
        exact hfit2 t (List.mem_reverse.mp ht)
      obtain ⟨y2, hrc, hy2r, hy2c⟩ := reverseChain_ok ts2.reverse
        (y1.mul (((lib.svd ((T0.transpose.mul
          (⟨S0.rows, S0.cols + (B.cols - A.cols),
            fun i j => if j < S0.cols then S0.entry i j else 0⟩ : Mat)).transpose)).1).mul
          (((lib.svd ((T0.transpose.mul
            (⟨S0.rows, S0.cols + (B.cols - A.cols),
              fun i j => if j < S0.cols then S0.entry i j else 0⟩ : Mat)).transpose)).2.2).transpose)))
        hfitRev
      refine ⟨⟨y1, y2⟩, ?_, ?_⟩
      · simp only [translatorForward, SVDEstimator.applyE, ha, hrc]
      · show y2.cols = B.cols
        rw [hy2c, chainPad_reverse, hpad2, hzT]
        have hRc : (y1.mul (((lib.svd ((T0.transpose.mul
            (⟨S0.rows, S0.cols + (B.cols - A.cols),
              fun i j => if j < S0.cols then S0.entry i j else 0⟩ : Mat)).transpose)).1).mul
            (((lib.svd ((T0.transpose.mul
              (⟨S0.rows, S0.cols + (B.cols - A.cols),
                fun i j => if j < S0.cols then S0.entry i j else 0⟩ : Mat)).transpose)).2.2).transpose))).cols
            = T0.cols := hsvd _
        rw [hRc]
        omega
  · -- target is narrower: padding goes to the target side
    have hnlt : ¬ A.cols < B.cols := by omega
    have hpadeq : (((A.cols : ℤ)) - ((B.cols : ℤ))).natAbs = A.cols - B.cols := by omega
    have hchainT : fitChain lib
        (st.target_transforms ++ [Transform.zeroPadding (A.cols - B.cols)]) B =
        .ok (ts2 ++ [Transform.zeroPadding (A.cols - B.cols)],
          ⟨T0.rows, T0.cols + (A.cols - B.cols),
            fun i j => if j < T0.cols then T0.entry i j else 0⟩) := by
      simp only [fitChain_append_pad lib st.target_transforms B (A.cols - B.cols), hc2]
    have hest := fitE_ok lib st.estimator S0
      (⟨T0.rows, T0.cols + (A.cols - B.cols),
        fun i j => if j < T0.cols then T0.entry i j else 0⟩ : Mat)
      (by rw [hS0r]; show A.rows = T0.rows; rw [hT0r]; exact hrows)
    simp only [translatorFit, hf, Bool.false_eq_true, if_false, hpadeq, hnlt, hgt, if_true,
      hchainT, hc1, hest]
    refine ⟨_, _, rfl, ?_, ?_, ?_, ?_⟩
    · intro h
      exact h.elim
    · intro _
      exact ⟨⟨ts2, rfl, hlen2⟩, hlen1⟩
    · refine ⟨_, _, rfl, rfl, ?_, ?_⟩
      · show S0.cols = max A.cols B.cols
        omega
      · show T0.cols + (A.cols - B.cols) = max A.cols B.cols
        omega
    · intro X
      have hfitAllS : ∀ t ∈ ts1, t.isFitted := hfit1
      obtain ⟨y1, ha, hy1r, hy1c⟩ := applyChain_ok lib ts1 X hfitAllS
      have hfitRev : ∀ t ∈ (ts2 ++ [Transform.zeroPadding (A.cols - B.cols)]).reverse,
          t.isFitted := by
        intro t ht
        rcases List.mem_append.mp (List.mem_reverse.mp ht) with h | h
        · exact hfit2 t h
        · rcases List.mem_singleton.mp h with rfl
          trivial
      obtain ⟨y2, hrc, hy2r, hy2c⟩ := reverseChain_ok
        (ts2 ++ [Transform.zeroPadding (A.cols - B.cols)]).reverse
        (y1.mul (((lib.svd (((⟨T0.rows, T0.cols + (A.cols - B.cols),
            fun i j => if j < T0.cols then T0.entry i j else 0⟩ : Mat).transpose.mul
          S0).transpose)).1).mul
          (((lib.svd (((⟨T0.rows, T0.cols + (A.cols - B.cols),
              fun i j => if j < T0.cols then T0.entry i j else 0⟩ : Mat).transpose.mul
            S0).transpose)).2.2).transpose)))
        hfitRev
      refine ⟨⟨y1, y2⟩, ?_, ?_⟩
      · simp only [translatorForward, SVDEstimator.applyE, ha, hrc]
      · show y2.cols = B.cols
        rw [hy2c, chainPad_reverse]
        have hRc : (y1.mul (((lib.svd (((⟨T0.rows, T0.cols + (A.cols - B.cols),
            fun i j => if j < T0.cols then T0.entry i j else 0⟩ : Mat).transpose.mul
            S0).transpose)).1).mul
            (((lib.svd (((⟨T0.rows, T0.cols + (A.cols - B.cols),
              fun i j => if j < T0.cols then T0.entry i j else 0⟩ : Mat).transpose.mul
              S0).transpose)).2.2).transpose))).cols
            = T0.cols + (A.cols - B.cols) := hsvd _
        rw [hRc]
        have hpadlist : chainPad (ts2 ++ [Transform.zeroPadding (A.cols - B.cols)]) =
            A.cols - B.cols := by
          simp [chainPad, List.map_append, List.sum_append, Transform.padAmount]
          simpa [chainPad] using hpad2.trans hzT
        rw [hpadlist]
        omega

theorem autopad_dimension_reconciliation_witness :
    (st0.fitted = false ∧
      (∀ t ∈ st0.source_transforms, t.widthPreserving) ∧
      (∀ t ∈ st0.target_transforms, t.widthPreserving) ∧
      (zeroes 1 50).rows = (zeroes 1 70).rows ∧
      (zeroes 1 50).cols ≠ (zeroes 1 70).cols ∧
      (∀ M, ((lib0.svd M).2.2).rows = M.cols)) ∧
    (∃ info st', translatorFit lib0 st0 (zeroes 1 50) (zeroes 1 70) = (.ok info, st') ∧
      ((zeroes 1 50).cols < (zeroes 1 70).cols →
        (∃ ts, st'.source_transforms =
            ts ++ [Transform.zeroPadding ((zeroes 1 70).cols - (zeroes 1 50).cols)] ∧
          ts.length = st0.source_transforms.length) ∧
        st'.target_transforms.length = st0.target_transforms.length) ∧
      ((zeroes 1 70).cols < (zeroes 1 50).cols →
        (∃ ts, st'.target_transforms =
            ts ++ [Transform.zeroPadding ((zeroes 1 50).cols - (zeroes 1 70).cols)] ∧
          ts.length = st0.target_transforms.length) ∧
        st'.source_transforms.length = st0.source_transforms.length) ∧
      (∃ S T, st'.transformed_source_data = some S ∧ st'.transformed_target_data = some T ∧
        S.cols = max (zeroes 1 50).cols (zeroes 1 70).cols ∧
        T.cols = max (zeroes 1 50).cols (zeroes 1 70).cols) ∧
      (∀ X, ∃ r, translatorForward lib0 st' X = .ok r ∧
        r.target.cols = (zeroes 1 70).cols)) := by
  have h1 : st0.fitted = false := rfl
  have h2 : ∀ t ∈ st0.source_transforms, t.widthPreserving := by
    intro t ht
    simp [st0, initTranslator] at ht
  have h3 : ∀ t ∈ st0.target_transforms, t.widthPreserving := by
    intro t ht
    simp [st0, initTranslator] at ht
  have h4 : (zeroes 1 50).rows = (zeroes 1 70).rows := rfl
  have h5 : (zeroes 1 50).cols ≠ (zeroes 1 70).cols := by decide
  have h6 : ∀ M, ((lib0.svd M).2.2).rows = M.cols := fun _ => rfl
  exact ⟨⟨h1, h2, h3, h4, h5, h6⟩,
    autopad_dimension_reconciliation lib0 st0 (zeroes 1 50) (zeroes 1 70) h1 h2 h3 h4 h5 h6⟩

/-- Helper: the per-column mean of centered data is zero (for every
column index, whatever column count the centered batch carries). -/
theorem colMean_center_lit (A : Mat) (c : ℕ) (j : ℕ) :
    colMean ⟨A.rows, c, fun i k => A.entry i k - colMean A k⟩ j = 0 := by
  rcases Nat.eq_zero_or_pos A.rows with h | h
  · simp [colMean, h]
  · have hn : (A.rows : ℚ) ≠ 0 := Nat.cast_ne_zero.mpr h.ne'
    simp only [colMean]
    rw [Finset.sum_sub_distrib, Finset.sum_const, Finset.card_range, nsmul_eq_mul,
      mul_div_cancel₀ _ hn, sub_self, zero_div]

/-- Helper: the per-column standard deviation is invariant under
centering — `data.std(dim=0)` of the centered batch equals that of the
raw batch, which is why fitting `STDScaling` after `Centering` agrees
with the manual pipeline's std of the raw anchors. -/
theorem colStd_center_lit (lib : TorchLib) (A : Mat) (c : ℕ) :
    colStd lib ⟨A.rows, c, fun i k => A.entry i k - colMean A k⟩ = colStd lib A := by
  funext j
  simp only [colStd, colMean_center_lit, sub_zero]

/-- Helper for the first equivalence scenario: manual
(centering, std-correction, svd) against
Translator(SVD, [Centering, STDScaling], [Centering, STDScaling]). -/
theorem combo1_centering_stdscaling (lib : TorchLib) (prng : ℕ) (A B X : Mat)
    (hcols : A.cols = B.cols) (hrows : A.rows = B.rows)
    (hsvd : ∀ M, ((lib.svd M).2.2).rows = M.cols) :
    ∃ t, manualRun lib prng ⟨0, true, true, false, "svd"⟩ A B X = .ok t ∧
      translatorRun lib 0 [Transform.centering none, Transform.stdScaling none]
        [Transform.centering none, Transform.stdScaling none] A B X = .ok t := by
  have d1 : (("svd" : String) = "absolute") = False := eq_false (by decide)
  have d2 : (("svd" : String) = "linear") = False := eq_false (by decide)
  have d3 : (("svd" : String) = "svd") = True := eq_true rfl
  have hlt1 : (A.cols < B.cols) = False := eq_false (by omega)
  have hlt2 : (B.cols < A.cols) = False := eq_false (by omega)
  have hceq : (A.cols = B.cols) = True := eq_true hcols
  have hreq : (A.rows = B.rows) = True := eq_true hrows
  apply Exists.intro
  constructor
  · simp only [manualRun, manualFit, manualTransform, manual_svd_translation,
      translatorRun, translatorFit, translatorForward, initTranslator, fitChain,
      applyChain, reverseChain, Transform.fitT, Transform.applyT, Transform.reverseT,
      SVDEstimator.fitE, SVDEstimator.applyE, Mat.transpose, Mat.mul, rowNormalize,
      d1, d2, d3, hlt1, hlt2, hceq, hreq, Bool.false_eq_true, eq_self_iff_true,
      if_true, if_false, true_and, and_false, false_and, lt_self_iff_false, min_self,
      hsvd, colStd_center_lit, sub_zero, div_one, mul_one, add_zero]
    rfl
  · simp only [manualRun, manualFit, manualTransform, manual_svd_translation,
      translatorRun, translatorFit, translatorForward, initTranslator, fitChain,
      applyChain, reverseChain, Transform.fitT, Transform.applyT, Transform.reverseT,
      SVDEstimator.fitE, SVDEstimator.applyE, Mat.transpose, Mat.mul, rowNormalize,
      d1, d2, d3, hlt1, hlt2, hceq, hreq, Bool.false_eq_true, eq_self_iff_true,
      if_true, if_false, true_and, and_false, false_and, lt_self_iff_false, min_self,
      hsvd, colStd_center_lit, sub_zero, div_one, mul_one, add_zero]

/-- Helper for the second equivalence scenario: the same manual
configuration against Translator(SVD, [StandardScaling],
[StandardScaling]). -/
theorem combo2_standardscaling (lib : TorchLib) (prng : ℕ) (A B X : Mat)
    (hcols : A.cols = B.cols) (hrows : A.rows = B.rows)
    (hsvd : ∀ M, ((lib.svd M).2.2).rows = M.cols) :
    ∃ t, manualRun lib prng ⟨0, true, true, false, "svd"⟩ A B X = .ok t ∧
      translatorRun lib 0 [Transform.standardScaling none]
        [Transform.standardScaling none] A B X = .ok t := by
  have d1 : (("svd" : String) = "absolute") = False := eq_false (by decide)
  have d2 : (("svd" : String) = "linear") = False := eq_false (by decide)
  have d3 : (("svd" : String) = "svd") = True := eq_true rfl
  have hlt1 : (A.cols < B.cols) = False := eq_false (by omega)
  have hlt2 : (B.cols < A.cols) = False := eq_false (by omega)
  have hceq : (A.cols = B.cols) = True := eq_true hcols
  have hreq : (A.rows = B.rows) = True := eq_true hrows
  apply Exists.intro
  constructor
  · simp only [manualRun, manualFit, manualTransform, manual_svd_translation,
      translatorRun, translatorFit, translatorForward, initTranslator, fitChain,
      applyChain, reverseChain, Transform.fitT, Transform.applyT, Transform.reverseT,
      SVDEstimator.fitE, SVDEstimator.applyE, Mat.transpose, Mat.mul, rowNormalize,
      d1, d2, d3, hlt1, hlt2, hceq, hreq, Bool.false_eq_true, eq_self_iff_true,
      if_true, if_false, true_and, and_false, false_and, lt_self_iff_false, min_self,
      hsvd, colStd_center_lit, sub_zero, div_one, mul_one, add_zero]
    rfl
  · simp only [manualRun, manualFit, manualTransform, manual_svd_translation,
      translatorRun, translatorFit, translatorForward, initTranslator, fitChain,
      applyChain, reverseChain, Transform.fitT, Transform.applyT, Transform.reverseT,
      SVDEstimator.fitE, SVDEstimator.applyE, Mat.transpose, Mat.mul, rowNormalize,
      d1, d2, d3, hlt1, hlt2, hceq, hreq, Bool.false_eq_true, eq_self_iff_true,
      if_true, if_false, true_and, and_false, false_and, lt_self_iff_false, min_self,
      hsvd, colStd_center_lit, sub_zero, div_one, mul_one, add_zero]

/-- Helper for the third equivalence scenario: manual (centering, l2)
against Translator(SVD, [Centering, L2], [Centering, L2]). -/
theorem combo3_centering_l2 (lib : TorchLib) (prng : ℕ) (A B X : Mat)
    (hcols : A.cols = B.cols) (hrows : A.rows = B.rows)
    (hsvd : ∀ M, ((lib.svd M).2.2).rows = M.cols) :
    ∃ t, manualRun lib prng ⟨0, true, false, true, "svd"⟩ A B X = .ok t ∧
      translatorRun lib 0 [Transform.centering none, Transform.l2 none]
        [Transform.centering none, Transform.l2 none] A B X = .ok t := by
  have d1 : (("svd" : String) = "absolute") = False := eq_false (by decide)
  have d2 : (("svd" : String) = "linear") = False := eq_false (by decide)
  have d3 : (("svd" : String) = "svd") = True := eq_true rfl
  have hlt1 : (A.cols < B.cols) = False := eq_false (by omega)
  have hlt2 : (B.cols < A.cols) = False := eq_false (by omega)
  have hceq : (A.cols = B.cols) = True := eq_true hcols
  have hreq : (A.rows = B.rows) = True := eq_true hrows
  apply Exists.intro
  constructor
  · simp only [manualRun, manualFit, manualTransform, manual_svd_translation,
      translatorRun, translatorFit, translatorForward, initTranslator, fitChain,
      applyChain, reverseChain, Transform.fitT, Transform.applyT, Transform.reverseT,
      SVDEstimator.fitE, SVDEstimator.applyE, Mat.transpose, Mat.mul, rowNormalize,
      d1, d2, d3, hlt1, hlt2, hceq, hreq, Bool.false_eq_true, eq_self_iff_true,
      if_true, if_false, true_and, and_false, false_and, lt_self_iff_false, min_self,
      hsvd, colStd_center_lit, sub_zero, div_one, mul_one, add_zero]
    rfl
  · simp only [manualRun, manualFit, manualTransform, manual_svd_translation,
      translatorRun, translatorFit, translatorForward, initTranslator, fitChain,
      applyChain, reverseChain, Transform.fitT, Transform.applyT, Transform.reverseT,
      SVDEstimator.fitE, SVDEstimator.applyE, Mat.transpose, Mat.mul, rowNormalize,
      d1, d2, d3, hlt1, hlt2, hceq, hreq, Bool.false_eq_true, eq_self_iff_true,
      if_true, if_false, true_and, and_false, false_and, lt_self_iff_false, min_self,
      hsvd, colStd_center_lit, sub_zero, div_one, mul_one, add_zero]

/-- Helper for the fourth equivalence scenario: manual (l2 only) against
Translator(SVD, [L2], [L2]). -/
theorem combo4_l2 (lib : TorchLib) (prng : ℕ) (A B X : Mat)
    (hcols : A.cols = B.cols) (hrows : A.rows = B.rows)
    (hsvd : ∀ M, ((lib.svd M).2.2).rows = M.cols) :
    ∃ t, manualRun lib prng ⟨0, false, false, true, "svd"⟩ A B X = .ok t ∧
      translatorRun lib 0 [Transform.l2 none] [Transform.l2 none] A B X = .ok t := by
  have d1 : (("svd" : String) = "absolute") = False := eq_false (by decide)
  have d2 : (("svd" : String) = "linear") = False := eq_false (by decide)
  have d3 : (("svd" : String) = "svd") = True := eq_true rfl
  have hlt1 : (A.cols < B.cols) = False := eq_false (by omega)
  have hlt2 : (B.cols < A.cols) = False := eq_false (by omega)
  have hceq : (A.cols = B.cols) = True := eq_true hcols
  have hreq : (A.rows = B.rows) = True := eq_true hrows
  apply Exists.intro
  constructor
  · simp only [manualRun, manualFit, manualTransform, manual_svd_translation,
      translatorRun, translatorFit, translatorForward, initTranslator, fitChain,
      applyChain, reverseChain, Transform.fitT, Transform.applyT, Transform.reverseT,
      SVDEstimator.fitE, SVDEstimator.applyE, Mat.transpose, Mat.mul, rowNormalize,
      d1, d2, d3, hlt1, hlt2, hceq, hreq, Bool.false_eq_true, eq_self_iff_true,
      if_true, if_false, true_and, and_false, false_and, lt_self_iff_false, min_self,
      hsvd, colStd_center_lit, sub_zero, div_one, mul_one, add_zero]
    rfl
  · simp only [manualRun, manualFit, manualTransform, manual_svd_translation,
      translatorRun, translatorFit, translatorForward, initTranslator, fitChain,
      applyChain, reverseChain, Transform.fitT, Transform.applyT, Transform.reverseT,
      SVDEstimator.fitE, SVDEstimator.applyE, Mat.transpose, Mat.mul, rowNormalize,
      d1, d2, d3, hlt1, hlt2, hceq, hreq, Bool.false_eq_true, eq_self_iff_true,
      if_true, if_false, true_and, and_false, false_and, lt_self_iff_false, min_self,
      hsvd, colStd_center_lit, sub_zero, div_one, mul_one, add_zero]

/-- Helper for the fifth equivalence scenario: manual (centering only)
against Translator(SVD, [Centering], [Centering]). -/
theorem combo5_centering (lib : TorchLib) (prng : ℕ) (A B X : Mat)
    (hcols : A.cols = B.cols) (hrows : A.rows = B.rows)
    (hsvd : ∀ M, ((lib.svd M).2.2).rows = M.cols) :
    ∃ t, manualRun lib prng ⟨0, true, false, false, "svd"⟩ A B X = .ok t ∧
      translatorRun lib 0 [Transform.centering none] [Transform.centering none]
        A B X = .ok t := by
  have d1 : (("svd" : String) = "absolute") = False := eq_false (by decide)
  have d2 : (("svd" : String) = "linear") = False := eq_false (by decide)
  have d3 : (("svd" : String) = "svd") = True := eq_true rfl
  have hlt1 : (A.cols < B.cols) = False := eq_false (by omega)
  have hlt2 : (B.cols < A.cols) = False := eq_false (by omega)
  have hceq : (A.cols = B.cols) = True := eq_true hcols
  have hreq : (A.rows = B.rows) = True := eq_true hrows
  apply Exists.intro
  constructor
  · simp only [manualRun, manualFit, manualTransform, manual_svd_translation,
      translatorRun, translatorFit, translatorForward, initTranslator, fitChain,
      applyChain, reverseChain, Transform.fitT, Transform.applyT, Transform.reverseT,
      SVDEstimator.fitE, SVDEstimator.applyE, Mat.transpose, Mat.mul, rowNormalize,
      d1, d2, d3, hlt1, hlt2, hceq, hreq, Bool.false_eq_true, eq_self_iff_true,
      if_true, if_false, true_and, and_false, false_and, lt_self_iff_false, min_self,
      hsvd, colStd_center_lit, sub_zero, div_one, mul_one, add_zero]
    rfl
  · simp only [manualRun, manualFit, manualTransform, manual_svd_translation,
      translatorRun, translatorFit, translatorForward, initTranslator, fitChain,
      applyChain, reverseChain, Transform.fitT, Transform.applyT, Transform.reverseT,
      SVDEstimator.fitE, SVDEstimator.applyE, Mat.transpose, Mat.mul, rowNormalize,
      d1, d2, d3, hlt1, hlt2, hceq, hreq, Bool.false_eq_true, eq_self_iff_true,
      if_true, if_false, true_and, and_false, false_and, lt_self_iff_false, min_self,
      hsvd, colStd_center_lit, sub_zero, div_one, mul_one, add_zero]

/-- C1: for each of the five parameter combinations of the equivalence
test, fitting the manual reference pipeline (seed 0, method "svd") and
the corresponding `LatentTranslator` (random_seed 0, SVDEstimator, the
listed transform chains) on the same equal-width anchor pair and then
transforming a batch produces target-space outputs that coincide exactly
(hence are `allclose`): a common output `t` exists on which both runs
succeed.  `torch.svd` enters only through its shape contract
(`V` has as many rows as the decomposed matrix has columns). -/
theorem svd_pipeline_equivalence (lib : TorchLib) (prng : ℕ) (A B X : Mat)
    (hcols : A.cols = B.cols) (hrows : A.rows = B.rows)
    (hsvd : ∀ M, ((lib.svd M).2.2).rows = M.cols) :
    (∃ t, manualRun lib prng ⟨0, true, true, false, "svd"⟩ A B X = .ok t ∧
      translatorRun lib 0 [Transform.centering none, Transform.stdScaling none]
        [Transform.centering none, Transform.stdScaling none] A B X = .ok t) ∧
    (∃ t, manualRun lib prng ⟨0, true, true, false, "svd"⟩ A B X = .ok t ∧
      translatorRun lib 0 [Transform.standardScaling none]
        [Transform.standardScaling none] A B X = .ok t) ∧
    (∃ t, manualRun lib prng ⟨0, true, false, true, "svd"⟩ A B X = .ok t ∧
      translatorRun lib 0 [Transform.centering none, Transform.l2 none]
        [Transform.centering none, Transform.l2 none] A B X = .ok t) ∧
    (∃ t, manualRun lib prng ⟨0, false, false, true, "svd"⟩ A B X = .ok t ∧
      translatorRun lib 0 [Transform.l2 none] [Transform.l2 none] A B X = .ok t) ∧
    (∃ t, manualRun lib prng ⟨0, true, false, false, "svd"⟩ A B X = .ok t ∧
      translatorRun lib 0 [Transform.centering none] [Transform.centering none]
        A B X = .ok t) :=
  ⟨combo1_centering_stdscaling lib prng A B X hcols hrows hsvd,
    combo2_standardscaling lib prng A B X hcols hrows hsvd,
    combo3_centering_l2 lib prng A B X hcols hrows hsvd,
    combo4_l2 lib prng A B X hcols hrows hsvd,
    combo5_centering lib prng A B X hcols hrows hsvd⟩

theorem svd_pipeline_equivalence_witness :
    ((ones 2 2).cols = (zeroes 2 2).cols ∧ (ones 2 2).rows = (zeroes 2 2).rows ∧
      (∀ M, ((lib0.svd M).2.2).rows = M.cols)) ∧
    ((∃ t, manualRun lib0 0 ⟨0, true, true, false, "svd"⟩ (ones 2 2) (zeroes 2 2)
          (ones 2 2) = .ok t ∧
        translatorRun lib0 0 [Transform.centering none, Transform.stdScaling none]
          [Transform.centering none, Transform.stdScaling none] (ones 2 2) (zeroes 2 2)
          (ones 2 2) = .ok t) ∧
      (∃ t, manualRun lib0 0 ⟨0, true, true, false, "svd"⟩ (ones 2 2) (zeroes 2 2)
          (ones 2 2) = .ok t ∧
        translatorRun lib0 0 [Transform.standardScaling none]
          [Transform.standardScaling none] (ones 2 2) (zeroes 2 2) (ones 2 2) = .ok t) ∧
      (∃ t, manualRun lib0 0 ⟨0, true, false, true, "svd"⟩ (ones 2 2) (zeroes 2 2)
          (ones 2 2) = .ok t ∧
        translatorRun lib0 0 [Transform.centering none, Transform.l2 none]
          [Transform.centering none, Transform.l2 none] (ones 2 2) (zeroes 2 2)
          (ones 2 2) = .ok t) ∧
      (∃ t, manualRun lib0 0 ⟨0, false, false, true, "svd"⟩ (ones 2 2) (zeroes 2 2)
          (ones 2 2) = .ok t ∧
        translatorRun lib0 0 [Transform.l2 none] [Transform.l2 none] (ones 2 2)
          (zeroes 2 2) (ones 2 2) = .ok t) ∧
      (∃ t, manualRun lib0 0 ⟨0, true, false, false, "svd"⟩ (ones 2 2) (zeroes 2 2)
          (ones 2 2) = .ok t ∧
        translatorRun lib0 0 [Transform.centering none] [Transform.centering none]
          (ones 2 2) (zeroes 2 2) (ones 2 2) = .ok t)) :=
  ⟨⟨rfl, rfl, fun _ => rfl⟩,
    svd_pipeline_equivalence lib0 0 (ones 2 2) (zeroes 2 2) (ones 2 2) rfl rfl
      (fun _ => rfl)⟩

/-- C2 (code bug): `LatentTranslator.forward` contains no fitted-state
check.  On an unfitted translator whose estimator happens to hold a
mapping (fitted separately), `forward` proceeds and returns a translation
instead of raising a "not fitted" state error, and its result does not
change when the fitted flag is toggled. -/
theorem forward_skips_fitted_check :
    stPrefit.fitted = false ∧
      translatorForward lib0 stPrefit (ones 1 1) =
        .ok ⟨ones 1 1, (ones 1 1).mul (eye 1)⟩ ∧
      translatorForward lib0 { stPrefit with fitted := true } (ones 1 1) =
        translatorForward lib0 stPrefit (ones 1 1) :=
  ⟨rfl, rfl, rfl⟩

end Latentis
